import Mathlib

/-!
Shallow embedding of the k-mer hash persistence and concurrent counting
engine of KAT (`src/lib/src/jellyfish_helper.cc`), together with proofs of
the behavioural properties of its loader, dumper, counter and lookup
operations.

Machine integers are modelled as `Nat`; the operations here never overflow
their 64-bit C++ counterparts on the inputs considered, and no claim is
about overflow behaviour.  Fallible operations return `Except`.
-/

/-- Modelled from the spec: the serialization format tag of a jellyfish hash
file header.  The concrete tag strings (`binary_dumper::format`,
`text_dumper::format`, and the literal `"bloomcounter"`) live partly in the
bundled jellyfish dependency outside `src/`; the dispatch in `loadHash`
compares the header's tag against exactly these three distinct constants, so
the tag is modelled as which of the three known formats it equals, or an
unknown tag string. -/
inductive HashFormat where
  | binary
  | text
  | bloomcounter
  | unknown (tag : String)
deriving DecidableEq

/-- The jellyfish hash file header fields used by KAT, as printed by
`kat::JellyfishHelper::printHeader` and consumed by `loadHash`:
format tag, key length in bits, value length in bits, counter length in
bytes, max reprobe, data offset and table size. -/
structure FileHeader where
  format : HashFormat
  keyLen : Nat
  valLen : Nat
  counterLen : Nat
  maxReprobe : Nat
  offset : Nat
  size : Nat
deriving DecidableEq

/-- Model of an opened jellyfish hash file.  `streamGood` is the state of the
input stream after the jellyfish `file_header` constructor has run (the
constructor itself signals parse failure only through the stream state, which
is why `loadHash` checks `in.good()` right after it); `fileLength` is the
total mapped file length in bytes; `records` is the sequence of
(key, counter) records the jellyfish `binary_reader` yields from the data
region. -/
structure HashFile where
  header : FileHeader
  streamGood : Bool
  fileLength : Nat
  records : List (Nat × Nat)
deriving DecidableEq

/-- Model of `jellyfish::large_hash::array`: fixed capacity, key/value widths,
reprobe limit, and the logical multiset of (key, counter) entries held as an
association list with additive insertion (`LargeHashArray::add` sums the
value into an existing entry for the same key, or claims a fresh slot). -/
structure LargeHashArray where
  capacity : Nat
  keyLen : Nat
  valLen : Nat
  maxReprobe : Nat
  counts : List (Nat × Nat)
deriving DecidableEq

/-- Additive insert: add `v` to the counter of key `k`, or append a fresh
entry when `k` is absent.  This is the logical content of
`LargeHashArray::add` / the spec's `insertOrIncrement`. -/
def insertOrAdd : List (Nat × Nat) → Nat → Nat → List (Nat × Nat)
  | [], k, v => [(k, v)]
  | p :: rest, k, v =>
      if p.1 = k then (p.1, p.2 + v) :: rest else p :: insertOrAdd rest k v

/-- Counter associated with key `k` (0 when absent), the loader-side view of
the table contents. -/
def lookupCount : List (Nat × Nat) → Nat → Nat
  | [], _ => 0
  | p :: rest, k => if p.1 = k then p.2 else lookupCount rest k

/-- Store lookup as it is exposed to `getCount`.  Modelled from the spec
(§4.2 `get(key) -> counter | NotFound`): jellyfish `get_val_for_key`
(bundled dependency, outside `src/`) reports whether the key was found and
writes the counter only on a hit; this is an `Option Nat`. -/
def storeGet : List (Nat × Nat) → Nat → Option Nat
  | [], _ => none
  | p :: rest, k => if p.1 = k then some p.2 else storeGet rest k

/-- Total value recorded for key `k` across a raw record list. -/
def sumFor (l : List (Nat × Nat)) (k : Nat) : Nat :=
  (l.map (fun p => if p.1 = k then p.2 else 0)).sum

/-- Key length in bytes as computed at `jellyfish_helper.cc:140`:
`key_len() / 8 + (key_len() % 8 != 0)`, i.e. the ceiling of bits / 8. -/
def keyLenBytes (bits : Nat) : Nat :=
  bits / 8 + (if bits % 8 ≠ 0 then 1 else 0)

/-- Record length in bytes as computed at `jellyfish_helper.cc:141`:
counter length plus key length in bytes. -/
def recordLen (h : FileHeader) : Nat :=
  h.counterLen + keyLenBytes h.keyLen

/-- Modelled from the spec: `jellyfish::ceilLog2` (bundled jellyfish
dependency, outside `src/`, used at `jellyfish_helper.cc:144`): the floor
logarithm is the index of the highest set bit (`Nat.log2`), and the result
rounds up by one unless the argument is already at most that power of two. -/
def ceilLog2 (n : Nat) : Nat :=
  if 2 ^ Nat.log2 n < n then Nat.log2 n + 1 else Nat.log2 n

/-- Observable side effects of a `loadHash` run, in program order: setting
the process-wide `mer_dna::k`, allocating the `LargeHashArray`, and
inserting one record. -/
inductive LoadEvent where
  | setMerK (k : Nat)
  | allocate (capacity : Nat)
  | insert (key : Nat) (val : Nat)
deriving DecidableEq

/-- The distinct `JellyfishException` throw sites of `loadHash`
(`jellyfish_helper.cc:103-106, 112-120, 162-167, 182-186`). -/
inductive LoadError where
  | formatError
  | unsupportedBloom
  | unsupportedText
  | corruptFile (fileSize : Nat) (recLen : Nat)
  | unknownFormat (tag : String)
deriving DecidableEq

/-- Outcome of a `loadHash` call: the process-wide `mer_dna::k` value after
the call (input value when untouched), the side-effect trace, and either the
populated array or the thrown error. -/
structure LoadOutcome where
  merK : Nat
  events : List LoadEvent
  result : Except LoadError LargeHashArray

/-- Shallow embedding of `kat::HashLoader::loadHash`
(`src/lib/src/jellyfish_helper.cc:98-188`), following the source's control
flow in order: header stream check, format dispatch (`bloomcounter`, text,
binary, unknown), then for binary: set `mer_dna::k` to `key_len()/2`,
compute data-region size, key/record byte lengths and record count, size the
table to `1 << ceilLog2(nbRecords*2)`, reject a data region that is not a
whole number of records, otherwise allocate and add every record the reader
yields.  `g` is the value of the process-wide `mer_dna::k` before the
call. -/
def loadHash (g : Nat) (f : HashFile) : LoadOutcome :=
  if f.streamGood = false then
    { merK := g, events := [], result := .error .formatError }
  else
    match f.header.format with
    | .bloomcounter =>
        { merK := g, events := [], result := .error .unsupportedBloom }
    | .text =>
        { merK := g, events := [], result := .error .unsupportedText }
    | .binary =>
        let merLen := f.header.keyLen / 2
        let fileSizeBytes := f.fileLength - f.header.offset
        let record_len := recordLen f.header
        let nbRecords := fileSizeBytes / record_len
        let lsize := ceilLog2 (nbRecords * 2)
        let tsize := 2 ^ lsize
        if fileSizeBytes % record_len ≠ 0 then
          { merK := merLen
          , events := [.setMerK merLen]
          , result := .error (.corruptFile fileSizeBytes record_len) }
        else
          { merK := merLen
          , events := [.setMerK merLen, .allocate tsize]
              ++ f.records.map (fun kv => .insert kv.1 kv.2)
          , result := .ok
              { capacity := tsize
              , keyLen := f.header.keyLen
              , valLen := f.header.valLen
              , maxReprobe := f.header.maxReprobe
              , counts := f.records.foldl (fun s kv => insertOrAdd s kv.1 kv.2) [] } }
    | .unknown tag =>
        { merK := g, events := [], result := .error (.unknownFormat tag) }

/-- Shallow embedding of `kat::JellyfishHelper::loadHashHeader`
(`src/lib/src/jellyfish_helper.cc:61-66`): opens the file, constructs the
header from the stream and returns it.  The source performs no check of the
stream state after construction, so the constructed header is returned even
when the stream was unreadable or truncated. -/
def loadHashHeader (f : HashFile) : FileHeader :=
  f.header

/-- Shallow embedding of `kat::JellyfishHelper::getCount`
(`src/lib/src/jellyfish_helper.cc:190-195`): canonicalize when requested
(the canonicalization function `mer_dna::get_canonical` lives in the
jellyfish dependency and is a parameter here), initialize `val` to 0, let
`get_val_for_key` overwrite it on a hit, and return it. -/
def getCount (canon : Nat → Nat) (counts : List (Nat × Nat))
    (kmer : Nat) (canonical : Bool) : Nat :=
  let k := if canonical then canon kmer else kmer
  match storeGet counts k with
  | none => 0
  | some v => v

/-- Observable actions of one counting worker, in order: adding a k-mer to
the shared counter with some delta, and signalling completion
(`HashCounter::done`). -/
inductive CountEvent where
  | add (mer : Nat) (delta : Nat)
  | done
deriving DecidableEq

/-- Shallow embedding of `kat::JellyfishHelper::countSlice`
(`src/lib/src/jellyfish_helper.cc:203-212`) as the trace of one worker:
`mers` is the sequence of k-mers its `MerIterator` yields from the shared
parser (already canonicalized and tag-filtered per the `canonical`/`tenx`
flags, which the iterator in the jellyfish dependency applies); the worker
adds each with delta exactly 1 and then signals `done`. -/
def countSliceTrace (mers : List Nat) : List CountEvent :=
  mers.map (fun m => .add m 1) ++ [.done]

/-- One `HashCounter::add(mer, 1)` call on the shared store. -/
def addMer (s : List (Nat × Nat)) (m : Nat) : List (Nat × Nat) :=
  insertOrAdd s m 1

/-- The shared store after a sequence of `add(mer, 1)` calls has been applied
to it in the given global order. -/
def countStore (init : List (Nat × Nat)) (order : List Nat) : List (Nat × Nat) :=
  order.foldl addMer init

/-- Outcome of a `countSeqFile` call: the process-wide `mer_dna::k` after the
call, the number of concurrent stream readers, one trace per spawned worker,
and the final shared store. -/
structure CountRun where
  merK : Nat
  nbStreams : Nat
  workerTraces : List (List CountEvent)
  store : List (Nat × Nat)

/-- Shallow embedding of `kat::JellyfishHelper::countSeqFile`
(`src/lib/src/jellyfish_helper.cc:220-247`): sets `mer_dna::k` to
`key_len()/2`, opens the paths through a `StreamManager` sized to
`min(paths.size(), threads)`, spawns exactly `threads` workers each running
`countSlice`, joins them all, and returns the shared counter's array.
The scheduler is nondeterministic, so the delivery of k-mers to workers
(`slices`, worker `i` pulling `slices[i]`) and the global interleaving of
their `add` calls on the shared store (`order`) are inputs of the model;
theorems constrain them by `order ~ slices.flatten` (each k-mer is delivered to
exactly one worker and every add lands on the shared store). -/
def countSeqFile (paths : List String) (keyLen : Nat)
    (hashInit : List (Nat × Nat)) (threads : Nat)
    (slices : List (List Nat)) (order : List Nat) : CountRun :=
  { merK := keyLen / 2
  , nbStreams := min paths.length threads
  , workerTraces := (List.range threads).map (fun i => countSliceTrace (slices.getD i []))
  , store := countStore hashInit order }

/-- Result of `dumpHash`: whether the dumper was put in single-file mode, and
the file it writes. -/
structure DumpResult where
  oneFile : Bool
  outFile : HashFile

/-- Shallow embedding of `kat::JellyfishHelper::dumpHash`
(`src/lib/src/jellyfish_helper.cc:249-257`): constructs a jellyfish
`binary_dumper` with counter length 4 bytes and the array's key length, sets
`one_file(true)` and dumps the array.  Modelled from the spec for the
dumper's own serialization (bundled jellyfish dependency, outside `src/`):
every non-empty entry becomes one fixed-size record of
`counterLen + ceil(keyLen/8)` bytes in one contiguous binary-format file
whose header preserves the array's key length and value width. -/
def dumpHash (ary : LargeHashArray) (header : FileHeader) (threads : Nat) :
    DumpResult :=
  let recs := ary.counts.filter (fun p => p.2 ≠ 0)
  let outHeader : FileHeader :=
    { format := .binary
    , keyLen := ary.keyLen
    , valLen := ary.valLen
    , counterLen := 4
    , maxReprobe := header.maxReprobe
    , offset := header.offset
    , size := ary.capacity }
  { oneFile := true
  , outFile :=
      { header := outHeader
      , streamGood := true
      , fileLength := header.offset + recs.length * recordLen outHeader
      , records := recs } }

/-- Concrete input for the end-to-end scenario with 31-mers: binary hash
file, key length 62 bits, 1-byte counters (record size 9 bytes), 4 records,
data region of 36 bytes behind a 16-byte header. -/
def fileA : HashFile :=
  { header := { format := .binary, keyLen := 62, valLen := 7, counterLen := 1
              , maxReprobe := 62, offset := 16, size := 8 }
  , streamGood := true
  , fileLength := 52
  , records := [(1, 2), (3, 4), (5, 6), (7, 8)] }

/-- Concrete binary-format file whose 37-byte data region is not a multiple
of its 9-byte record size. -/
def rippedFile : HashFile :=
  { header := { format := .binary, keyLen := 62, valLen := 7, counterLen := 1
              , maxReprobe := 62, offset := 16, size := 8 }
  , streamGood := true
  , fileLength := 53
  , records := [(1, 2), (3, 4), (5, 6), (7, 8)] }

/-- Concrete file carrying a bloom-counter format tag. -/
def bloomFile : HashFile :=
  { header := { format := .bloomcounter, keyLen := 62, valLen := 7
              , counterLen := 1, maxReprobe := 62, offset := 16, size := 8 }
  , streamGood := true, fileLength := 52, records := [] }

/-- Concrete file carrying a text format tag. -/
def textFile : HashFile :=
  { header := { format := .text, keyLen := 62, valLen := 7, counterLen := 1
              , maxReprobe := 62, offset := 16, size := 8 }
  , streamGood := true, fileLength := 52, records := [] }

/-- Concrete file carrying an unrecognized format tag. -/
def mysteryFile : HashFile :=
  { header := { format := .unknown "mystery", keyLen := 62, valLen := 7
              , counterLen := 1, maxReprobe := 62, offset := 16, size := 8 }
  , streamGood := true, fileLength := 52, records := [] }

/-- Concrete file whose stream goes bad while the header is being parsed
(truncated input). -/
def truncatedFile : HashFile :=
  { header := { format := .binary, keyLen := 62, valLen := 7, counterLen := 1
              , maxReprobe := 62, offset := 16, size := 8 }
  , streamGood := false, fileLength := 3, records := [] }

/-- Concrete binary file with key length 40 bits (20-mers) and an empty data
region, used to exhibit the overwrite of the global k-mer length. -/
def fileK40 : HashFile :=
  { header := { format := .binary, keyLen := 40, valLen := 7, counterLen := 1
              , maxReprobe := 40, offset := 8, size := 2 }
  , streamGood := true, fileLength := 8, records := [] }

/-- Concrete array used to exercise the dump/load round trip; note the entry
with counter 0, which the dumper drops. -/
def aryW : LargeHashArray :=
  { capacity := 8, keyLen := 62, valLen := 7, maxReprobe := 62
  , counts := [(1, 2), (3, 0), (5, 6)] }

/-- Adding `v` at key `k` raises the counter at `k` by `v` and leaves every
other key unchanged. -/
theorem lookupCount_insertOrAdd (s : List (Nat × Nat)) (k v j : Nat) :
    lookupCount (insertOrAdd s k v) j
      = if k = j then lookupCount s j + v else lookupCount s j := by
  induction s with
  | nil =>
      by_cases h : k = j <;> simp [insertOrAdd, lookupCount, h]
  | cons p rest ih =>
      by_cases hpk : p.1 = k
      · subst hpk
        by_cases hj : p.1 = j <;> simp [insertOrAdd, lookupCount, hj]
      · by_cases hj : p.1 = j
        · have hkj : ¬ k = j := fun h => hpk (h ▸ hj)
          have hjk : ¬ j = k := fun h => hkj h.symm
          simp [insertOrAdd, lookupCount, hpk, hj, hkj, hjk]
        · simp [insertOrAdd, lookupCount, hpk, hj, ih]

/-- The store after a sequence of unit adds holds, at each key, its initial
counter plus the number of times that key occurs in the sequence. -/
theorem lookupCount_countStore (order : List Nat) (init : List (Nat × Nat))
    (k : Nat) :
    lookupCount (countStore init order) k
      = lookupCount init k + order.count k := by
  induction order generalizing init with
  | nil => simp [countStore]
  | cons m rest ih =>
      have h1 : countStore init (m :: rest) = countStore (addMer init m) rest := rfl
      rw [h1, ih, addMer, lookupCount_insertOrAdd]
      by_cases hm : m = k <;> simp [List.count_cons, hm] <;> omega

/-- The store after folding a list of records through additive insertion
holds, at each key, its initial counter plus the summed values recorded for
that key. -/
theorem lookupCount_foldl_insertOrAdd (l : List (Nat × Nat))
    (init : List (Nat × Nat)) (k : Nat) :
    lookupCount (l.foldl (fun s kv => insertOrAdd s kv.1 kv.2) init) k
      = lookupCount init k + sumFor l k := by
  induction l generalizing init with
  | nil => simp [sumFor]
  | cons p rest ih =>
      rw [List.foldl_cons, ih, lookupCount_insertOrAdd]
      by_cases hp : p.1 = k <;> simp [sumFor, hp] <;> omega

/-- A key that appears on no record contributes a zero sum. -/
theorem sumFor_eq_zero (l : List (Nat × Nat)) (k : Nat)
    (h : ∀ p ∈ l, p.1 ≠ k) : sumFor l k = 0 := by
  induction l with
  | nil => simp [sumFor]
  | cons p rest ih =>
      have hp : p.1 ≠ k := h p (by simp)
      have hr : ∀ q ∈ rest, q.1 ≠ k := fun q hq => h q (by simp [hq])
      simp [sumFor, hp, ih hr] at *
      simpa [sumFor] using ih hr

/-- Dropping the records whose value is zero does not change any key's
summed value. -/
theorem sumFor_filter_nonzero (l : List (Nat × Nat)) (k : Nat) :
    sumFor (l.filter (fun p => p.2 ≠ 0)) k = sumFor l k := by
  induction l with
  | nil => simp [sumFor]
  | cons p rest ih =>
      by_cases hz : p.2 = 0
      · by_cases hk : p.1 = k <;>
          simp [List.filter_cons, hz, sumFor, hk] <;>
          simpa [sumFor] using ih
      · by_cases hk : p.1 = k <;>
          simp [List.filter_cons, hz, sumFor, hk] <;>
          simpa [sumFor] using ih

/-- Over an association list with pairwise distinct keys, the summed value
at a key is exactly that key's counter. -/
theorem sumFor_of_nodup (l : List (Nat × Nat)) (k : Nat)
    (hnd : (l.map Prod.fst).Nodup) :
    sumFor l k = lookupCount l k := by
  induction l with
  | nil => simp [sumFor, lookupCount]
  | cons p rest ih =>
      rw [List.map_cons] at hnd
      have hmem : p.1 ∉ rest.map Prod.fst := (List.nodup_cons.mp hnd).1
      have hrest : (rest.map Prod.fst).Nodup := (List.nodup_cons.mp hnd).2
      by_cases hk : p.1 = k
      · subst hk
        have hnot : ∀ q ∈ rest, q.1 ≠ p.1 := by
          intro q hq hqp
          exact hmem (hqp ▸ List.mem_map_of_mem Prod.fst hq)
        have hzero : sumFor rest p.1 = 0 := sumFor_eq_zero _ _ hnot
        simp [sumFor, lookupCount] at *
        simpa [sumFor] using hzero
      · simp [sumFor, lookupCount, hk]
        simpa [sumFor] using ih hrest

/-- The table size computed from `ceilLog2` is at least its argument. -/
theorem le_pow_ceilLog2 (n : Nat) : n ≤ 2 ^ ceilLog2 n := by
  unfold ceilLog2
  by_cases h : 2 ^ Nat.log2 n < n
  · simp [h]
    exact Nat.le_of_lt Nat.lt_log2_self
  · simpa [h] using Nat.le_of_not_lt h

/-- The table size computed from `ceilLog2` is the least power of two
reaching its argument. -/
theorem pow_ceilLog2_le (n m : Nat) (h : n ≤ 2 ^ m) :
    2 ^ ceilLog2 n ≤ 2 ^ m := by
  rcases Nat.eq_zero_or_pos n with hn | hn
  · subst hn
    simpa [ceilLog2, Nat.log2] using Nat.one_le_two_pow
  unfold ceilLog2
  by_cases hlt : 2 ^ Nat.log2 n < n
  · simp only [hlt, if_true]
    apply Nat.pow_le_pow_right (by omega)
    by_contra hcon
    have hm : m ≤ Nat.log2 n := by omega
    have : 2 ^ m ≤ 2 ^ Nat.log2 n := Nat.pow_le_pow_right (by omega) hm
    omega
  · simp only [hlt, if_false]
    apply Nat.pow_le_pow_right (by omega)
    by_contra hcon
    have hm : m < Nat.log2 n := by omega
    have h1 : 2 ^ (m + 1) ≤ 2 ^ Nat.log2 n := Nat.pow_le_pow_right (by omega) hm
    have h2 : 2 ^ Nat.log2 n ≤ n := Nat.log2_self_le (by omega)
    have h3 : 2 ^ m < 2 ^ (m + 1) := Nat.pow_lt_pow_right (by omega) (by omega)
    omega

/-- C1: for every hash file whose header carries the binary format tag, if
the data-region size (file size minus data offset) is not an exact multiple
of the record size `counterLenBytes + ceil(keyLenBits/8)`, then `loadHash`
fails with the corrupt-file error and performs no partial load: its event
trace contains no table allocation and no record insertion. -/
theorem loadHash_corrupt_no_partial_load (g : Nat) (f : HashFile)
    (hfmt : f.header.format = .binary) (hgood : f.streamGood = true)
    (hdiv : (f.fileLength - f.header.offset) % recordLen f.header ≠ 0) :
    (loadHash g f).result
      = .error (.corruptFile (f.fileLength - f.header.offset) (recordLen f.header))
    ∧ ∀ e ∈ (loadHash g f).events,
        (∀ c, e ≠ .allocate c) ∧ ∀ a b, e ≠ .insert a b := by
  have h1 : loadHash g f =
      { merK := f.header.keyLen / 2
      , events := [.setMerK (f.header.keyLen / 2)]
      , result := .error (.corruptFile (f.fileLength - f.header.offset)
          (recordLen f.header)) } := by
    simp [loadHash, hgood, hfmt, hdiv]
  rw [h1]
  refine ⟨rfl, ?_⟩
  intro e he
  simp only [List.mem_singleton] at he
  subst he
  exact ⟨fun c => by simp, fun a b => by simp⟩

/-- C1 witness: the concrete binary file with a 37-byte data region and
9-byte records is rejected as corrupt. -/
theorem loadHash_corrupt_no_partial_load_witness :
    (loadHash 0 rippedFile).result
      = .error (.corruptFile (rippedFile.fileLength - rippedFile.header.offset)
          (recordLen rippedFile.header)) :=
  (loadHash_corrupt_no_partial_load 0 rippedFile rfl rfl (by decide)).1

/-- C5: on a parseable header, `loadHash` fails with the unsupported-format
error when the format tag is the bloom-counter tag and when it is the text
tag, in both cases with an empty side-effect trace, so before any hash table
is allocated. -/
theorem loadHash_rejects_bloom_and_text (g : Nat) (f : HashFile)
    (hgood : f.streamGood = true) :
    (f.header.format = .bloomcounter →
        (loadHash g f).result = .error .unsupportedBloom
        ∧ (loadHash g f).events = [])
    ∧ (f.header.format = .text →
        (loadHash g f).result = .error .unsupportedText
        ∧ (loadHash g f).events = []) := by
  constructor <;> intro hfmt <;>
    exact ⟨by simp [loadHash, hgood, hfmt], by simp [loadHash, hgood, hfmt]⟩

/-- C5 witness: concrete bloom-counter and text format files are rejected
with the unsupported-format errors. -/
theorem loadHash_rejects_bloom_and_text_witness :
    (loadHash 0 bloomFile).result = .error .unsupportedBloom
    ∧ (loadHash 0 textFile).result = .error .unsupportedText :=
  ⟨((loadHash_rejects_bloom_and_text 0 bloomFile rfl).1 rfl).1,
   ((loadHash_rejects_bloom_and_text 0 textFile rfl).2 rfl).1⟩

/-- C7 counterexample: `loadHashHeader` does not fail on an unreadable or
truncated stream; it returns the header the constructor produced even though
the stream went bad, so the claim that it never returns a header constructed
from an unreadable stream is false of the standalone `loadHashHeader`. -/
theorem loadHashHeader_returns_header_on_bad_stream :
    truncatedFile.streamGood = false
    ∧ loadHashHeader truncatedFile = truncatedFile.header :=
  ⟨rfl, rfl⟩

/-- C7 amended: header parsing inside `loadHash` does fail whenever the
stream is unreadable or ends early: `loadHash` throws the header parse
error, touches no global state and allocates nothing, so `loadHash` never
proceeds with a header constructed from an unreadable stream (while the
standalone `loadHashHeader` performs no such check). -/
theorem loadHash_bad_stream_formatError (g : Nat) (f : HashFile)
    (h : f.streamGood = false) :
    (loadHash g f).result = .error .formatError
    ∧ (loadHash g f).events = []
    ∧ (loadHash g f).merK = g := by
  refine ⟨?_, ?_, ?_⟩ <;> simp [loadHash, h]

/-- C7 witness: the concrete truncated file makes `loadHash` throw the
header parse error. -/
theorem loadHash_bad_stream_formatError_witness :
    (loadHash 7 truncatedFile).result = .error .formatError :=
  (loadHash_bad_stream_formatError 7 truncatedFile rfl).1

/-- C8: `getCount` returns 0 whenever the (optionally canonicalized) k-mer
is absent from the hash, so a missing key is indistinguishable at this
interface from a key stored with counter 0; the return type carries no
distinct not-found result. -/
theorem getCount_missing_key_is_zero (canon : Nat → Nat)
    (counts : List (Nat × Nat)) (kmer : Nat) (canonical : Bool)
    (h : storeGet counts (if canonical then canon kmer else kmer) = none
       ∨ storeGet counts (if canonical then canon kmer else kmer) = some 0) :
    getCount canon counts kmer canonical = 0 := by
  unfold getCount
  rcases h with h | h <;> simp [h]

/-- C8 witness: on the concrete store holding only key 5 with counter 0, an
absent key and the stored-zero key both return 0. -/
theorem getCount_missing_key_is_zero_witness :
    getCount id [(5, 0)] 9 false = 0 ∧ getCount id [(5, 0)] 5 false = 0 :=
  ⟨getCount_missing_key_is_zero id [(5, 0)] 9 false (Or.inl (by decide)),
   getCount_missing_key_is_zero id [(5, 0)] 5 false (Or.inr (by decide))⟩

/-- C9: `loadHash` returns a store only when the format tag is exactly the
binary format, and a parseable header with any unrecognized tag is rejected
with the unknown-format error. -/
theorem loadHash_ok_only_binary (g : Nat) (f : HashFile) :
    (∀ r, (loadHash g f).result = .ok r → f.header.format = .binary)
    ∧ (∀ tag, f.streamGood = true → f.header.format = .unknown tag →
        (loadHash g f).result = .error (.unknownFormat tag)) := by
  constructor
  · intro r hr
    by_cases hg : f.streamGood = false
    · simp [loadHash, hg] at hr
    · cases hfmt : f.header.format with
      | binary => rfl
      | text => simp [loadHash, hg, hfmt] at hr
      | bloomcounter => simp [loadHash, hg, hfmt] at hr
      | unknown tag => simp [loadHash, hg, hfmt] at hr
  · intro tag hg hfmt
    simp [loadHash, hg, hfmt]

/-- C9 witness: the concrete file with tag "mystery" is rejected with the
unknown-format error. -/
theorem loadHash_ok_only_binary_witness :
    (loadHash 0 mysteryFile).result = .error (.unknownFormat "mystery") :=
  (loadHash_ok_only_binary 0 mysteryFile).2 "mystery" rfl rfl

/-- On a parseable binary-format file whose data region is a whole number of
records, `loadHash` returns the array sized by `ceilLog2` and populated by
folding the reader's records through additive insertion. -/
theorem loadHash_binary_ok (g : Nat) (f : HashFile)
    (hfmt : f.header.format = .binary) (hgood : f.streamGood = true)
    (hdiv : (f.fileLength - f.header.offset) % recordLen f.header = 0) :
    (loadHash g f).result = .ok
      { capacity :=
          2 ^ ceilLog2 ((f.fileLength - f.header.offset) / recordLen f.header * 2)
      , keyLen := f.header.keyLen
      , valLen := f.header.valLen
      , maxReprobe := f.header.maxReprobe
      , counts := f.records.foldl (fun s kv => insertOrAdd s kv.1 kv.2) [] } := by
  simp [loadHash, hgood, hfmt, hdiv]

/-- C2: the final store produced by `countSeqFile` holds the same
(key, counter) content for any two thread counts at least 1 and any two
valid schedules over the same k-mer input and canonicalization setting —
where a valid schedule delivers each k-mer of the input to exactly one
worker and interleaves the workers' unit adds on the shared store in any
order — so counting is invariant under thread count and interleaving. -/
theorem countSeqFile_interleaving_independent
    (paths : List String) (keyLen : Nat) (init : List (Nat × Nat))
    (mers : List Nat) (t1 t2 : Nat) (s1 s2 : List (List Nat))
    (o1 o2 : List Nat)
    (ht1 : 1 ≤ t1) (ht2 : 1 ≤ t2)
    (hs1 : s1.length = t1) (hs2 : s2.length = t2)
    (hj1 : s1.flatten.Perm mers) (hj2 : s2.flatten.Perm mers)
    (ho1 : o1.Perm s1.flatten) (ho2 : o2.Perm s2.flatten) :
    ∀ k, lookupCount (countSeqFile paths keyLen init t1 s1 o1).store k
       = lookupCount (countSeqFile paths keyLen init t2 s2 o2).store k := by
  intro k
  have e1 : (countSeqFile paths keyLen init t1 s1 o1).store
      = countStore init o1 := rfl
  have e2 : (countSeqFile paths keyLen init t2 s2 o2).store
      = countStore init o2 := rfl
  rw [e1, e2, lookupCount_countStore, lookupCount_countStore]
  have c1 : o1.count k = mers.count k := (ho1.trans hj1).count_eq k
  have c2 : o2.count k = mers.count k := (ho2.trans hj2).count_eq k
  omega

/-- C2 witness: counting the k-mer sequence [4, 5, 4] with 1 thread in
program order and with 2 threads under a different split and interleaving
yields the same counter for k-mer 4. -/
theorem countSeqFile_interleaving_independent_witness :
    lookupCount (countSeqFile ["in.fa"] 8 [] 1 [[4, 5, 4]] [4, 5, 4]).store 4
      = lookupCount (countSeqFile ["in.fa"] 8 [] 2 [[4], [5, 4]] [5, 4, 4]).store 4 :=
  countSeqFile_interleaving_independent ["in.fa"] 8 [] [4, 5, 4] 1 2
    [[4, 5, 4]] [[4], [5, 4]] [4, 5, 4] [5, 4, 4]
    (by decide) (by decide) (by decide) (by decide)
    (by decide) (by decide) (by decide) (by decide) 4

/-- C3: a successful binary load allocates the fresh store with capacity
`2 ^ ceilLog2(numRecords * 2)` where
`numRecords = (fileSize - dataOffset) / recordBytes`, and this capacity is
the smallest power of two that is at least `2 * numRecords`. -/
theorem loadHash_capacity_least_pow2 (g : Nat) (f : HashFile)
    (hfmt : f.header.format = .binary) (hgood : f.streamGood = true)
    (hdiv : (f.fileLength - f.header.offset) % recordLen f.header = 0) :
    ∃ r, (loadHash g f).result = .ok r
      ∧ r.capacity
          = 2 ^ ceilLog2 ((f.fileLength - f.header.offset) / recordLen f.header * 2)
      ∧ (∃ l, r.capacity = 2 ^ l)
      ∧ (f.fileLength - f.header.offset) / recordLen f.header * 2 ≤ r.capacity
      ∧ ∀ m, (f.fileLength - f.header.offset) / recordLen f.header * 2 ≤ 2 ^ m →
          r.capacity ≤ 2 ^ m := by
  exact ⟨_, loadHash_binary_ok g f hfmt hgood hdiv, rfl, ⟨_, rfl⟩,
    le_pow_ceilLog2 _, fun m hm => pow_ceilLog2_le _ m hm⟩

/-- C3 witness: the concrete binary file with key length 62 bits, 1-byte
counters (9-byte records) and 4 records loads into a store of capacity 8. -/
theorem loadHash_capacity_least_pow2_witness :
    ∃ r, (loadHash 0 fileA).result = .ok r ∧ r.capacity = 8 := by
  obtain ⟨r, hok, hcap, -⟩ :=
    loadHash_capacity_least_pow2 0 fileA rfl rfl (by decide)
  refine ⟨r, hok, ?_⟩
  rw [hcap]
  simp [fileA, recordLen, keyLenBytes, ceilLog2, Nat.log2]

/-- C4: `dumpHash` writes all non-empty entries of the store as one
contiguous single file in the binary record layout, preserving the header's
key length and value width, and the composition with `loadHash` reproduces a
store with the same counter at every key. -/
theorem dumpHash_loadHash_roundtrip (g : Nat) (ary : LargeHashArray)
    (header : FileHeader) (threads : Nat)
    (hnd : (ary.counts.map Prod.fst).Nodup) :
    (dumpHash ary header threads).oneFile = true
    ∧ (dumpHash ary header threads).outFile.header.format = .binary
    ∧ (dumpHash ary header threads).outFile.header.keyLen = ary.keyLen
    ∧ (dumpHash ary header threads).outFile.header.valLen = ary.valLen
    ∧ (dumpHash ary header threads).outFile.records
        = ary.counts.filter (fun p => p.2 ≠ 0)
    ∧ ∃ r, (loadHash g (dumpHash ary header threads).outFile).result = .ok r
        ∧ ∀ k, lookupCount r.counts k = lookupCount ary.counts k := by
  refine ⟨rfl, rfl, rfl, rfl, rfl, ?_⟩
  have hdiv : ((dumpHash ary header threads).outFile.fileLength
      - (dumpHash ary header threads).outFile.header.offset)
      % recordLen (dumpHash ary header threads).outFile.header = 0 := by
    simp [dumpHash, Nat.mul_mod_left]
  have hok := loadHash_binary_ok g (dumpHash ary header threads).outFile rfl rfl hdiv
  refine ⟨_, hok, ?_⟩
  intro k
  have hrecs : (dumpHash ary header threads).outFile.records
      = ary.counts.filter (fun p => p.2 ≠ 0) := rfl
  show lookupCount ((dumpHash ary header threads).outFile.records.foldl
      (fun s kv => insertOrAdd s kv.1 kv.2) []) k = lookupCount ary.counts k
  rw [hrecs, lookupCount_foldl_insertOrAdd]
  have hz : lookupCount [] k = 0 := rfl
  rw [hz, Nat.zero_add, sumFor_filter_nonzero, sumFor_of_nodup _ _ hnd]

/-- C4 witness: the concrete array holding keys 1, 3, 5 (key 3 with counter
0) round-trips through dump and load with counters preserved at keys 1, 3
and 5. -/
theorem dumpHash_loadHash_roundtrip_witness :
    (dumpHash aryW fileA.header 4).oneFile = true
    ∧ ∃ r, (loadHash 0 (dumpHash aryW fileA.header 4).outFile).result = .ok r
        ∧ lookupCount r.counts 1 = lookupCount aryW.counts 1
        ∧ lookupCount r.counts 3 = lookupCount aryW.counts 3
        ∧ lookupCount r.counts 5 = lookupCount aryW.counts 5 := by
  obtain ⟨h1, -, -, -, -, r, hok, hall⟩ :=
    dumpHash_loadHash_roundtrip 0 aryW fileA.header 4 (by decide)
  exact ⟨h1, r, hok, hall 1, hall 3, hall 5⟩

/-- C6: `countSeqFile` opens its input paths through a shared chunk stream
sized to `min(paths.size(), threadCount)` concurrent readers, spawns exactly
`threadCount` workers each running `countSlice`, and its final store (read
after all workers are joined) accounts for the full interleaved sequence of
adds; each worker's trace adds every k-mer it pulls with delta exactly 1 and
ends with the completion signal once its stream is exhausted. -/
theorem countSeqFile_structure (paths : List String) (keyLen : Nat)
    (init : List (Nat × Nat)) (threads : Nat) (slices : List (List Nat))
    (order : List Nat) :
    (countSeqFile paths keyLen init threads slices order).nbStreams
        = min paths.length threads
    ∧ (countSeqFile paths keyLen init threads slices order).workerTraces.length
        = threads
    ∧ (∀ tr ∈ (countSeqFile paths keyLen init threads slices order).workerTraces,
        (∃ mers, tr = countSliceTrace mers)
        ∧ (∀ e ∈ tr, e = .done ∨ ∃ m, e = .add m 1)
        ∧ tr.getLast? = some .done)
    ∧ (countSeqFile paths keyLen init threads slices order).store
        = countStore init order := by
  refine ⟨rfl, by simp [countSeqFile], ?_, rfl⟩
  intro tr htr
  simp only [countSeqFile, List.mem_map, List.mem_range] at htr
  obtain ⟨i, -, rfl⟩ := htr
  refine ⟨⟨slices.getD i [], rfl⟩, ?_, ?_⟩
  · intro e he
    simp only [countSliceTrace, List.mem_append, List.mem_map,
      List.mem_singleton] at he
    rcases he with ⟨m, -, rfl⟩ | rfl
    · exact Or.inr ⟨m, rfl⟩
    · exact Or.inl rfl
  · simp [countSliceTrace]

/-- C6 witness: three input files counted with two threads give two worker
traces and a stream manager sized to two concurrent readers. -/
theorem countSeqFile_structure_witness :
    (countSeqFile ["a", "b", "c"] 8 [] 2 [[1, 2], [2]] [1, 2, 2]).nbStreams = 2
    ∧ (countSeqFile ["a", "b", "c"] 8 [] 2 [[1, 2], [2]] [1, 2, 2]).workerTraces.length
        = 2 := by
  obtain ⟨h1, h2, -, -⟩ :=
    countSeqFile_structure ["a", "b", "c"] 8 [] 2 [[1, 2], [2]] [1, 2, 2]
  exact ⟨h1.trans (by decide), h2⟩

/-- C10: both `loadHash` (on a binary-format file) and `countSeqFile` set
the process-wide `mer_dna::k` to `key_len / 2` as a side effect, so the
k-mer length used for encoding and decoding is hidden shared state: a second
pass with a different key length overwrites the first pass's configuration. -/
theorem merK_global_overwrite (g : Nat) (f1 f2 : HashFile)
    (paths : List String) (keyLen : Nat) (init : List (Nat × Nat))
    (threads : Nat) (slices : List (List Nat)) (order : List Nat)
    (h1 : f1.header.format = .binary) (hg1 : f1.streamGood = true)
    (h2 : f2.header.format = .binary) (hg2 : f2.streamGood = true) :
    (loadHash g f1).merK = f1.header.keyLen / 2
    ∧ (countSeqFile paths keyLen init threads slices order).merK = keyLen / 2
    ∧ (loadHash (loadHash g f1).merK f2).merK = f2.header.keyLen / 2
    ∧ (f1.header.keyLen / 2 ≠ f2.header.keyLen / 2 →
        (loadHash (loadHash g f1).merK f2).merK ≠ f1.header.keyLen / 2) := by
  have hm : ∀ (g' : Nat) (f' : HashFile), f'.header.format = .binary →
      f'.streamGood = true → (loadHash g' f').merK = f'.header.keyLen / 2 := by
    intro g' f' hfmt hg
    by_cases hdiv : (f'.fileLength - f'.header.offset) % recordLen f'.header ≠ 0
    · simp [loadHash, hfmt, hg, hdiv]
    · simp [loadHash, hfmt, hg, hdiv]
  refine ⟨hm g f1 h1 hg1, rfl, hm _ f2 h2 hg2, ?_⟩
  intro hne
  rw [hm _ f2 h2 hg2]
  exact fun hc => hne (hc ▸ rfl)

/-- C10 witness: loading the concrete 62-bit-key file sets the global k-mer
length to 31; a subsequent load of the 40-bit-key file overwrites it with
20, losing the first configuration. -/
theorem merK_global_overwrite_witness :
    (loadHash 0 fileA).merK = 31
    ∧ (loadHash (loadHash 0 fileA).merK fileK40).merK = 20
    ∧ (loadHash (loadHash 0 fileA).merK fileK40).merK ≠ 31 := by
  obtain ⟨a, -, c, d⟩ :=
    merK_global_overwrite 0 fileA fileK40 [] 0 [] 0 [] [] rfl rfl rfl rfl
  have e62 : fileA.header.keyLen / 2 = 31 := by decide
  have e40 : fileK40.header.keyLen / 2 = 20 := by decide
  exact ⟨a.trans e62, c.trans e40, by
    have hd := d (by decide)
    rw [e62] at hd
    exact hd⟩
